import Mathlib

/-!
# Relayer indexer configuration and HTTP server construction

A shallow embedding of `packages/relayer/indexer/config.go`
(`Config`, `NewConfigFromCliContext`) together with models of the parts of the
relayer that the configuration feeds.

Go values are embedded as follows.

* `string` is `String`; `uint64` is a `Nat` reduced modulo `2 ^ 64`.
* A pointer or interface that may be `nil` is an `Option`.
* A Go result pair `(x, err)` is a pair of `Option`s, so that the four
  combinations of nil and non-nil components stay distinguishable.
* `*cli.Context` (urfave/cli) is a set of defined flags, each holding a
  value, together with the record of which flags were set; the three accessors
  the source calls on it read a flag as the library does.
* Functions of other packages that the source calls (`common.HexToAddress`,
  `db.OpenDBConnection`, `gorm.Open`, `db.New`, `rabbitmq.NewQueue`) are taken
  as parameters, bundled in `Externals`.
-/

namespace Relayer

/-! ## Go runtime values -/

/-- A Go `error` value that is not nil. -/
structure GoError where
  msg : String
  deriving DecidableEq, Repr

/-- A Go result pair `(x, err)`: either component may be nil. -/
abbrev GoResult (α : Type) : Type := Option α × Option GoError

/-- Reduction of a natural number to the range of a Go `uint64`. -/
def toUint64 (n : Nat) : Nat := n % 2 ^ 64

/-! ## The command line context (`*cli.Context`) -/

/-- The value that a defined flag holds. A `Uint64Flag` holds a `uint64`. A
flag of any other kind is given by the two readings the library takes of it:
the string that its value renders to, and the number that this string parses
to as a `uint64` (zero when it does not parse). -/
inductive FlagValue where
  | uint64 (v : Nat)
  | other (rendering : String) (parsed : Nat)
  deriving DecidableEq, Repr

/-- The string a flag value renders to; a `uint64` is rendered in decimal. -/
def FlagValue.render : FlagValue → String
  | .uint64 v => Nat.repr (toUint64 v)
  | .other rendering _ => rendering

/-- The `uint64` that the rendering of a flag value parses to; the decimal
rendering of a `uint64` parses to that number. -/
def FlagValue.parse : FlagValue → Nat
  | .uint64 v => toUint64 v
  | .other _ parsed => toUint64 parsed

/-- The part of `*cli.Context` that `config.go` uses: the flags defined in the
context with the values they hold (`none` for a name that is not defined), and
whether a flag was set. -/
structure Context where
  flagSet : String → Option FlagValue
  isSet : String → Bool

/-- Reading `c.Uint64(name)`: what the rendering of the flag parses to, and
zero when the flag is not defined. -/
def Context.Uint64 (c : Context) (name : String) : Nat :=
  match c.flagSet name with
  | none => 0
  | some f => f.parse

/-- Reading `c.IsSet(name)`. -/
def Context.IsSet (c : Context) (name : String) : Bool :=
  c.isSet name

/-- Reading `c.String(name)`: the rendering of the flag, and the empty string
when the flag is not defined. -/
def Context.String (c : Context) (name : String) : String :=
  match c.flagSet name with
  | none => ""
  | some f => f.render

/-! ## Flag declarations (`cmd/flags`) -/

/-- A flag declaration; `config.go` uses only its `Name`. -/
structure Flag where
  Name : String
  deriving DecidableEq, Repr

/-- The flag declarations of package `flags` that `config.go` refers to. Their
names are declared outside this file and are taken as a parameter. -/
structure Flags where
  SrcBridgeAddress : Flag
  SrcTaikoAddress : Flag
  SrcSignalServiceAddress : Flag
  DestBridgeAddress : Flag
  DatabaseUsername : Flag
  DatabasePassword : Flag
  DatabaseName : Flag
  DatabaseHost : Flag
  DatabaseMaxIdleConns : Flag
  DatabaseMaxOpenConns : Flag
  DatabaseConnMaxLifetime : Flag
  QueueUsername : Flag
  QueuePassword : Flag
  QueuePort : Flag
  QueueHost : Flag
  SrcRPCUrl : Flag
  DestRPCUrl : Flag
  BlockBatchSize : Flag
  MaxNumGoroutines : Flag
  SubscriptionBackoff : Flag
  WatchMode : Flag
  SyncMode : Flag
  ETHClientTimeout : Flag
  NumLatestBlocksToIgnoreWhenCrawling : Flag
  EventName : Flag
  TargetBlockNumber : Flag

/-! ## Mode types -/

/-- The Go type `SyncMode`, a string type: `SyncMode(s)` keeps the string. -/
structure SyncMode where
  val : String
  deriving DecidableEq, Repr

/-- The Go type `WatchMode`, a string type: `WatchMode(s)` keeps the string. -/
structure WatchMode where
  val : String
  deriving DecidableEq, Repr

/-- Modelled from the spec: the declaration of the sync mode constants is not
in `config.go`; the specification gives the set as `{resync, continue}`. -/
def validSyncModes : List SyncMode := [⟨"resync"⟩, ⟨"continue"⟩]

/-- Modelled from the spec: the declaration of the watch mode constants is not
in `config.go`; the specification gives the set as `{filter, subscription}`. -/
def validWatchModes : List WatchMode := [⟨"filter"⟩, ⟨"subscription"⟩]

/-! ## Option records of the packages `db` and `queue` -/

/-- The record `db.DBConnectionOpts`, with the fields `config.go` fills in.
`DBHandle` stands for `*db.DB`. -/
structure DBConnectionOpts (DBHandle : Type) where
  Name : String
  Password : String
  Database : String
  Host : String
  MaxIdleConns : Nat
  MaxOpenConns : Nat
  MaxConnLifetime : Nat
  OpenFunc : String → GoResult DBHandle

/-- The record `queue.NewQueueOpts`, with the fields `config.go` fills in. -/
structure NewQueueOpts where
  Username : String
  Password : String
  Host : String
  Port : String
  deriving DecidableEq, Repr

/-- The functions of other packages that `config.go` calls. -/
structure Externals (Address DBHandle GormDB Queue : Type) where
  /-- The function `common.HexToAddress`. -/
  HexToAddress : String → Address
  /-- The call `gorm.Open(mysql.Open(dsn), cfg)` with the silent logger. -/
  gormOpen : String → GoResult GormDB
  /-- The function `db.New`. -/
  dbNew : Option GormDB → DBHandle
  /-- The function `db.OpenDBConnection`. -/
  OpenDBConnection : DBConnectionOpts DBHandle → GoResult DBHandle
  /-- The function `rabbitmq.NewQueue`. -/
  NewQueue : NewQueueOpts → GoResult Queue

/-! ## `Config` and `NewConfigFromCliContext` -/

/-- The Go struct `Config`. -/
structure Config (Address DBHandle Queue : Type) where
  SrcBridgeAddress : Address
  SrcSignalServiceAddress : Address
  SrcTaikoAddress : Address
  DestBridgeAddress : Address
  DatabaseUsername : String
  DatabasePassword : String
  DatabaseName : String
  DatabaseHost : String
  DatabaseMaxIdleConns : Nat
  DatabaseMaxOpenConns : Nat
  DatabaseMaxConnLifetime : Nat
  QueueUsername : String
  QueuePassword : String
  QueueHost : String
  QueuePort : Nat
  SrcRPCUrl : String
  DestRPCUrl : String
  ETHClientTimeout : Nat
  BlockBatchSize : Nat
  NumGoroutines : Nat
  SubscriptionBackoff : Nat
  SyncMode : SyncMode
  WatchMode : WatchMode
  NumLatestBlocksToIgnoreWhenCrawling : Nat
  EventName : String
  TargetBlockNumber : Option Nat
  OpenQueueFunc : Unit → GoResult Queue
  OpenDBFunc : Unit → GoResult DBHandle

section
variable {Address DBHandle GormDB Queue : Type}

/-- The closure passed as `OpenFunc` (config.go, lines 94-103). -/
def openFunc (ext : Externals Address DBHandle GormDB Queue) (dsn : String) :
    GoResult DBHandle :=
  match ext.gormOpen dsn with
  | (_, some err) => (none, some err)
  | (gormDB, none) => (some (ext.dbNew gormDB), none)

/-- The options record built inside `OpenDBFunc` (config.go, lines 86-104). -/
def dbConnectionOpts (ext : Externals Address DBHandle GormDB Queue)
    (flags : Flags) (c : Context) : DBConnectionOpts DBHandle :=
  { Name := c.String flags.DatabaseUsername.Name
    Password := c.String flags.DatabasePassword.Name
    Database := c.String flags.DatabaseName.Name
    Host := c.String flags.DatabaseHost.Name
    MaxIdleConns := c.Uint64 flags.DatabaseMaxIdleConns.Name
    MaxOpenConns := c.Uint64 flags.DatabaseMaxOpenConns.Name
    MaxConnLifetime := c.Uint64 flags.DatabaseConnMaxLifetime.Name
    OpenFunc := openFunc ext }

/-- The options record built inside `OpenQueueFunc` (config.go, lines 107-112). -/
def newQueueOpts (flags : Flags) (c : Context) : NewQueueOpts :=
  { Username := c.String flags.QueueUsername.Name
    Password := c.String flags.QueuePassword.Name
    Host := c.String flags.QueueHost.Name
    Port := c.String flags.QueuePort.Name }

/-- The function `NewConfigFromCliContext` (config.go, lines 51-122). -/
def NewConfigFromCliContext (ext : Externals Address DBHandle GormDB Queue)
    (flags : Flags) (c : Context) :
    GoResult (Config Address DBHandle Queue) :=
  (some
    { SrcBridgeAddress := ext.HexToAddress (c.String flags.SrcBridgeAddress.Name)
      SrcTaikoAddress := ext.HexToAddress (c.String flags.SrcTaikoAddress.Name)
      SrcSignalServiceAddress :=
        ext.HexToAddress (c.String flags.SrcSignalServiceAddress.Name)
      DestBridgeAddress := ext.HexToAddress (c.String flags.DestBridgeAddress.Name)
      DatabaseUsername := c.String flags.DatabaseUsername.Name
      DatabasePassword := c.String flags.DatabasePassword.Name
      DatabaseName := c.String flags.DatabaseName.Name
      DatabaseHost := c.String flags.DatabaseHost.Name
      DatabaseMaxIdleConns := c.Uint64 flags.DatabaseMaxIdleConns.Name
      DatabaseMaxOpenConns := c.Uint64 flags.DatabaseMaxOpenConns.Name
      DatabaseMaxConnLifetime := c.Uint64 flags.DatabaseConnMaxLifetime.Name
      QueueUsername := c.String flags.QueueUsername.Name
      QueuePassword := c.String flags.QueuePassword.Name
      QueuePort := c.Uint64 flags.QueuePort.Name
      QueueHost := c.String flags.QueueHost.Name
      SrcRPCUrl := c.String flags.SrcRPCUrl.Name
      DestRPCUrl := c.String flags.DestRPCUrl.Name
      BlockBatchSize := c.Uint64 flags.BlockBatchSize.Name
      NumGoroutines := c.Uint64 flags.MaxNumGoroutines.Name
      SubscriptionBackoff := c.Uint64 flags.SubscriptionBackoff.Name
      WatchMode := ⟨c.String flags.WatchMode.Name⟩
      SyncMode := ⟨c.String flags.SyncMode.Name⟩
      ETHClientTimeout := c.Uint64 flags.ETHClientTimeout.Name
      NumLatestBlocksToIgnoreWhenCrawling :=
        c.Uint64 flags.NumLatestBlocksToIgnoreWhenCrawling.Name
      EventName := c.String flags.EventName.Name
      TargetBlockNumber :=
        if c.IsSet flags.TargetBlockNumber.Name then
          some (c.Uint64 flags.TargetBlockNumber.Name)
        else
          none
      OpenDBFunc := fun _ => ext.OpenDBConnection (dbConnectionOpts ext flags c)
      OpenQueueFunc := fun _ =>
        match ext.NewQueue (newQueueOpts flags c) with
        | (_, some err) => (none, some err)
        | (q, none) => (q, none) },
   none)

end

/-! ## Construction of the HTTP server (`pkg/http`) -/

/-- The error values that `Test_NewServer` expects from `NewServer`:
`relayer.ErrNoEthClient`, `relayer.ErrNoBlockRepository`,
`relayer.ErrNoEventRepository`, `relayer.ErrNoCORSOrigins` and
`ErrNoHTTPFramework`. -/
inductive ServerError where
  | ErrNoEthClient
  | ErrNoBlockRepository
  | ErrNoEventRepository
  | ErrNoCORSOrigins
  | ErrNoHTTPFramework
  deriving DecidableEq, Repr

/-- The record `NewServerOpts`, with the fields that `Test_NewServer` fills in.
A dependency left out of the literal is nil; `CorsOrigins` is a slice, nil when
left out and present (possibly of length zero) after `make([]string, 0)`. -/
structure NewServerOpts (Echo EventRepo SuspendedTxRepo EthClient BlockRepo : Type) where
  Echo : Option Echo
  EventRepo : Option EventRepo
  SuspendedTxRepo : Option SuspendedTxRepo
  CorsOrigins : Option (List String)
  SrcEthClient : Option EthClient
  DestEthClient : Option EthClient
  BlockRepo : Option BlockRepo

/-- The struct `Server`, with the fields that `newTestServer` fills in. -/
structure Server (Echo EventRepo SuspendedTxRepo : Type) where
  echo : Option Echo
  eventRepo : Option EventRepo
  suspendedTxRepo : Option SuspendedTxRepo

/-- The dependencies whose absence `Test_NewServer` expects to be reported. -/
inductive Dependency where
  | SrcEthClient
  | DestEthClient
  | BlockRepo
  | EventRepo
  | CorsOrigins
  | Echo
  deriving DecidableEq, Repr

/-- The error that `Test_NewServer` designates for a missing dependency. -/
def Dependency.error : Dependency → ServerError
  | .SrcEthClient => .ErrNoEthClient
  | .DestEthClient => .ErrNoEthClient
  | .BlockRepo => .ErrNoBlockRepository
  | .EventRepo => .ErrNoEventRepository
  | .CorsOrigins => .ErrNoCORSOrigins
  | .Echo => .ErrNoHTTPFramework

section
variable {Echo EventRepo SuspendedTxRepo EthClient BlockRepo : Type}

/-- Whether a dependency is nil in the options. -/
def NewServerOpts.missing
    (opts : NewServerOpts Echo EventRepo SuspendedTxRepo EthClient BlockRepo) :
    Dependency → Bool
  | .SrcEthClient => opts.SrcEthClient.isNone
  | .DestEthClient => opts.DestEthClient.isNone
  | .BlockRepo => opts.BlockRepo.isNone
  | .EventRepo => opts.EventRepo.isNone
  | .CorsOrigins => opts.CorsOrigins.isNone
  | .Echo => opts.Echo.isNone

/-- Modelled from the spec: `NewServer` (package `http`) is not among the
sources, only its test `Test_NewServer` is. The model follows the table of that
test: the options are checked for nil dependencies and the first missing one
met yields its designated error and no server; with none missing the server is
built and the error is nil. The test fixes no order among the checks, so the
order is the parameter `checks`. -/
def NewServer (checks : List Dependency)
    (opts : NewServerOpts Echo EventRepo SuspendedTxRepo EthClient BlockRepo) :
    Option (Server Echo EventRepo SuspendedTxRepo) × Option ServerError :=
  match checks.find? opts.missing with
  | some d => (none, some d.error)
  | none =>
    (some { echo := opts.Echo, eventRepo := opts.EventRepo,
            suspendedTxRepo := opts.SuspendedTxRepo }, none)

end

/-- The checks in the order of the cases of `Test_NewServer`. -/
def tableChecks : List Dependency :=
  [.SrcEthClient, .DestEthClient, .BlockRepo, .EventRepo, .CorsOrigins, .Echo]

/-! ## The crawler's batches -/

/-- A block range `[fromBlock, toBlock]`, both ends included. -/
structure BlockRange where
  fromBlock : Nat
  toBlock : Nat
  deriving DecidableEq, Repr

/-- Whether block `n` lies in the range. -/
def BlockRange.contains (r : BlockRange) (n : Nat) : Bool :=
  decide (r.fromBlock ≤ n) && decide (n ≤ r.toBlock)

/-- The number of blocks of a range with `fromBlock ≤ toBlock`. -/
def BlockRange.size (r : BlockRange) : Nat :=
  r.toBlock - r.fromBlock + 1

/-- Modelled from the spec: the batching loop of the crawler, which is not among
the sources. Starting at `fromBlock`, cut off batches of `batchSize` blocks,
the last one shortened to stop at `endBlock`. The first argument bounds the
number of iterations. -/
def batchesFrom : Nat → Nat → Nat → Nat → List BlockRange
  | 0, _, _, _ => []
  | fuel + 1, fromBlock, endBlock, batchSize =>
    if endBlock < fromBlock then []
    else
      let toBlock := min (fromBlock + batchSize - 1) endBlock
      ⟨fromBlock, toBlock⟩ :: batchesFrom fuel (toBlock + 1) endBlock batchSize

/-- Modelled from the spec: the crawler is not among the sources. The
specification says that, given `[start, end]` and `BlockBatchSize`, it
partitions the range into consecutive, non-overlapping batches of at most
`BlockBatchSize` blocks; the model cuts full batches from `start` upwards and
lets the last batch stop at `end`. One iteration per block of the range is
enough when `BlockBatchSize ≥ 1`. -/
def partitionRange (startBlock endBlock batchSize : Nat) : List BlockRange :=
  batchesFrom (endBlock + 1 - startBlock) startBlock endBlock batchSize

/-! ## The progress cursor -/

/-- Whether block `n` lies in one of the committed batches. -/
def committed (done : List BlockRange) (n : Nat) : Bool :=
  done.any (fun b => b.contains n)

/-- Modelled from the spec: the state of cursor advancement, which is not among
the sources. It holds the persisted cursor (`none` while no block of the range
is covered by it) and the batches that workers have committed but whose
contribution to the cursor is still held back. -/
structure CursorState where
  cursor : Option Nat
  pending : List BlockRange
  deriving DecidableEq, Repr

/-- The first block the cursor does not cover yet. -/
def CursorState.nextBlock (startBlock : Nat) (s : CursorState) : Nat :=
  match s.cursor with
  | none => startBlock
  | some c => c + 1

/-- Modelled from the spec: the release of held back batches, part of the
cursor logic that is not among the sources. As long as a held back batch
starts right after the cursor, move the cursor to its last block. The first
argument bounds the number of iterations. -/
def advance (startBlock : Nat) : Nat → CursorState → CursorState
  | 0, s => s
  | fuel + 1, s =>
    match s.pending.find? (fun b => decide (b.fromBlock = s.nextBlock startBlock)) with
    | none => s
    | some b =>
      advance startBlock fuel { cursor := some b.toBlock, pending := s.pending.erase b }

/-- Modelled from the spec: the cursor logic is not among the sources. The
specification says that a batch's contribution to the cursor is only committed
once all batches with lower block numbers have already committed; the model
holds a committed batch back until the cursor has reached the block before it,
and then releases every batch that has become adjacent. -/
def commitBatch (startBlock : Nat) (s : CursorState) (b : BlockRange) : CursorState :=
  advance startBlock (s.pending.length + 1) { s with pending := b :: s.pending }

/-- The state after the batches of `order` have committed, in that order,
starting with no cursor and nothing held back. -/
def runCommits (startBlock : Nat) (order : List BlockRange) : CursorState :=
  order.foldl (commitBatch startBlock) { cursor := none, pending := [] }

/-- All blocks from `startBlock` to `B` are committed. -/
def CommittedUpTo (startBlock : Nat) (done : List BlockRange) (B : Nat) : Prop :=
  ∀ n, startBlock ≤ n → n ≤ B → committed done n = true

/-- The cursor value `cur` is the highest block `B` of the range such that all
blocks from `startBlock` to `B` are committed; `none` stands for there being no
such block, which is the case when `startBlock` itself is not committed. -/
def IsFrontier (startBlock : Nat) (done : List BlockRange) : Option Nat → Prop
  | none => committed done startBlock = false
  | some B =>
    startBlock ≤ B ∧ CommittedUpTo startBlock done B ∧
      ∀ B2, CommittedUpTo startBlock done B2 → B2 ≤ B

/-- The order of cursor values: no cursor is below every cursor. -/
def cursorLE : Option Nat → Option Nat → Prop
  | none, _ => True
  | some _, none => False
  | some a, some b => a ≤ b

/-- Two ranges share no block. -/
def BlockRange.Disjoint (a b : BlockRange) : Prop :=
  ∀ n, ¬ (a.contains n = true ∧ b.contains n = true)

/-- The invariant of cursor advancement, relative to the batches `done` that
have committed so far: held back batches are committed ones and occur once;
a committed batch that is no longer held back lies below the first uncovered
block; every block below the first uncovered block lies in a committed batch
that is no longer held back; and the cursor stays inside the range. -/
structure CursorInv (startBlock : Nat) (done : List BlockRange) (s : CursorState) :
    Prop where
  pending_done : ∀ b ∈ s.pending, b ∈ done
  released_below : ∀ b ∈ done, b ∉ s.pending → b.toBlock < s.nextBlock startBlock
  covered : ∀ n, startBlock ≤ n → n < s.nextBlock startBlock →
    ∃ b ∈ done, b ∉ s.pending ∧ b.contains n = true
  cursor_ge : ∀ c, s.cursor = some c → startBlock ≤ c
  nodup : s.pending.Nodup

/-- No held back batch starts right after the cursor. -/
def Drained (startBlock : Nat) (s : CursorState) : Prop :=
  ∀ b ∈ s.pending, b.fromBlock ≠ s.nextBlock startBlock

/-! ## Sample inputs -/

/-- A sample assignment of flag names, each flag named after its declaration. -/
def sampleFlags : Flags :=
  { SrcBridgeAddress := ⟨"srcBridgeAddress"⟩
    SrcTaikoAddress := ⟨"srcTaikoAddress"⟩
    SrcSignalServiceAddress := ⟨"srcSignalServiceAddress"⟩
    DestBridgeAddress := ⟨"destBridgeAddress"⟩
    DatabaseUsername := ⟨"databaseUsername"⟩
    DatabasePassword := ⟨"databasePassword"⟩
    DatabaseName := ⟨"databaseName"⟩
    DatabaseHost := ⟨"databaseHost"⟩
    DatabaseMaxIdleConns := ⟨"databaseMaxIdleConns"⟩
    DatabaseMaxOpenConns := ⟨"databaseMaxOpenConns"⟩
    DatabaseConnMaxLifetime := ⟨"databaseConnMaxLifetime"⟩
    QueueUsername := ⟨"queueUsername"⟩
    QueuePassword := ⟨"queuePassword"⟩
    QueuePort := ⟨"queuePort"⟩
    QueueHost := ⟨"queueHost"⟩
    SrcRPCUrl := ⟨"srcRPCUrl"⟩
    DestRPCUrl := ⟨"destRPCUrl"⟩
    BlockBatchSize := ⟨"blockBatchSize"⟩
    MaxNumGoroutines := ⟨"maxNumGoroutines"⟩
    SubscriptionBackoff := ⟨"subscriptionBackoff"⟩
    WatchMode := ⟨"watchMode"⟩
    SyncMode := ⟨"syncMode"⟩
    ETHClientTimeout := ⟨"ethClientTimeout"⟩
    NumLatestBlocksToIgnoreWhenCrawling := ⟨"numLatestBlocksToIgnoreWhenCrawling"⟩
    EventName := ⟨"eventName"⟩
    TargetBlockNumber := ⟨"targetBlockNumber"⟩ }

/-- Sample stand-ins for the external functions: an address is kept as its
flag string, a database handle is the data source name it was opened with and
a queue is the options record it was opened with. -/
def sampleExternals : Externals String String String NewQueueOpts :=
  { HexToAddress := fun s => s
    gormOpen := fun dsn => (some dsn, none)
    dbNew := fun g => g.getD ""
    OpenDBConnection := fun opts => opts.OpenFunc (opts.Host ++ "/" ++ opts.Database)
    NewQueue := fun opts => (some opts, none) }

/-- A context in which no flag is defined: every string reading is empty,
every `uint64` reading is zero and no flag is set. -/
def emptyContext : Context :=
  { flagSet := fun _ => none
    isSet := fun _ => false }

/-- A context whose queue port flag is defined as a `uint64` flag that was set
to 5672; no other flag is defined. -/
def portContext : Context :=
  { flagSet := fun name => if name = "queuePort" then some (.uint64 5672) else none
    isSet := fun name => name = "queuePort" }

/-- A context whose target block number flag is defined as a `uint64` flag
that was set to 0; no other flag is defined. -/
def zeroTargetContext : Context :=
  { flagSet := fun name =>
      if name = "targetBlockNumber" then some (.uint64 0) else none
    isSet := fun name => name = "targetBlockNumber" }

/-- Four batches of a range that starts at block 100, in an order of commits
that is not the order of the blocks; the batch `[160, 179]` never commits. -/
def outOfOrder : List BlockRange :=
  [⟨120, 139⟩, ⟨140, 159⟩, ⟨100, 119⟩, ⟨180, 200⟩]

/-! ## Theorems on `NewConfigFromCliContext` -/

section
variable {Address DBHandle GormDB Queue : Type}

/-- C1, as stated, fails: the context in which the sync mode and watch mode
flags read as the empty string yields no error, and a config whose modes are
outside the sets of the specification. -/
theorem newConfig_modes_not_validated :
    ¬ ((NewConfigFromCliContext sampleExternals sampleFlags emptyContext).2 ≠ none ∨
        ∃ cfg, (NewConfigFromCliContext sampleExternals sampleFlags emptyContext).1
            = some cfg ∧
          cfg.SyncMode ∈ validSyncModes ∧ cfg.WatchMode ∈ validWatchModes) := by
  rintro (h | ⟨cfg, hcfg, hs, -⟩)
  · exact h rfl
  · simp only [NewConfigFromCliContext, Option.some.injEq] at hcfg
    subst hcfg
    revert hs
    decide

/-- C1, amended: for every context `NewConfigFromCliContext` returns a nil
error and a config whose `SyncMode` and `WatchMode` are the strings of the sync
mode and watch mode flags, unchanged; so the modes lie in `{resync, continue}`
and `{filter, subscription}` exactly when the flags hold one of those strings. -/
theorem newConfig_modes_verbatim (ext : Externals Address DBHandle GormDB Queue)
    (flags : Flags) (c : Context) :
    (NewConfigFromCliContext ext flags c).2 = none ∧
      ∃ cfg, (NewConfigFromCliContext ext flags c).1 = some cfg ∧
        cfg.SyncMode = ⟨c.String flags.SyncMode.Name⟩ ∧
        cfg.WatchMode = ⟨c.String flags.WatchMode.Name⟩ ∧
        (cfg.SyncMode ∈ validSyncModes ↔
          c.String flags.SyncMode.Name = "resync" ∨
            c.String flags.SyncMode.Name = "continue") ∧
        (cfg.WatchMode ∈ validWatchModes ↔
          c.String flags.WatchMode.Name = "filter" ∨
            c.String flags.WatchMode.Name = "subscription") := by
  refine ⟨rfl, _, rfl, rfl, rfl, ?_, ?_⟩
  · simp [validSyncModes, SyncMode.mk.injEq]
  · simp [validWatchModes, WatchMode.mk.injEq]

/-- C2: the `TargetBlockNumber` of the returned config is nil exactly when the
target block number flag is not set, and when the flag is set it is present and
holds the `uint64` reading of the flag (so a flag set to zero gives a present
zero, which differs from nil). -/
theorem newConfig_targetBlockNumber (ext : Externals Address DBHandle GormDB Queue)
    (flags : Flags) (c : Context) :
    ∃ cfg, (NewConfigFromCliContext ext flags c).1 = some cfg ∧
      (cfg.TargetBlockNumber = none ↔ c.IsSet flags.TargetBlockNumber.Name = false) ∧
      ((c.IsSet flags.TargetBlockNumber.Name = false ∧ cfg.TargetBlockNumber = none) ∨
        (c.IsSet flags.TargetBlockNumber.Name = true ∧
          cfg.TargetBlockNumber = some (c.Uint64 flags.TargetBlockNumber.Name))) := by
  refine ⟨_, rfl, ?_, ?_⟩
  · cases h : c.IsSet flags.TargetBlockNumber.Name <;> simp [h]
  · cases h : c.IsSet flags.TargetBlockNumber.Name <;> simp [h]

/-- A target block number flag set to zero gives a present zero, not nil. -/
theorem zero_target_is_present :
    ∃ cfg, (NewConfigFromCliContext sampleExternals sampleFlags zeroTargetContext).1
        = some cfg ∧
      cfg.TargetBlockNumber = some 0 ∧ cfg.TargetBlockNumber ≠ none :=
  ⟨_, rfl, by decide, by decide⟩

/-- C3: every scalar field of the returned config is the reading of its own
flag: the string fields are the string readings, the `uint64` fields the
`uint64` readings (`NumGoroutines` from `MaxNumGoroutines`,
`DatabaseMaxConnLifetime` from `DatabaseConnMaxLifetime`), and the four address
fields are `HexToAddress` of the string readings. -/
theorem newConfig_fields (ext : Externals Address DBHandle GormDB Queue)
    (flags : Flags) (c : Context) :
    ∃ cfg, (NewConfigFromCliContext ext flags c).1 = some cfg ∧
      cfg.DatabaseUsername = c.String flags.DatabaseUsername.Name ∧
      cfg.DatabasePassword = c.String flags.DatabasePassword.Name ∧
      cfg.DatabaseName = c.String flags.DatabaseName.Name ∧
      cfg.DatabaseHost = c.String flags.DatabaseHost.Name ∧
      cfg.QueueUsername = c.String flags.QueueUsername.Name ∧
      cfg.QueuePassword = c.String flags.QueuePassword.Name ∧
      cfg.QueueHost = c.String flags.QueueHost.Name ∧
      cfg.SrcRPCUrl = c.String flags.SrcRPCUrl.Name ∧
      cfg.DestRPCUrl = c.String flags.DestRPCUrl.Name ∧
      cfg.EventName = c.String flags.EventName.Name ∧
      cfg.DatabaseMaxIdleConns = c.Uint64 flags.DatabaseMaxIdleConns.Name ∧
      cfg.DatabaseMaxOpenConns = c.Uint64 flags.DatabaseMaxOpenConns.Name ∧
      cfg.QueuePort = c.Uint64 flags.QueuePort.Name ∧
      cfg.BlockBatchSize = c.Uint64 flags.BlockBatchSize.Name ∧
      cfg.SubscriptionBackoff = c.Uint64 flags.SubscriptionBackoff.Name ∧
      cfg.ETHClientTimeout = c.Uint64 flags.ETHClientTimeout.Name ∧
      cfg.NumLatestBlocksToIgnoreWhenCrawling =
        c.Uint64 flags.NumLatestBlocksToIgnoreWhenCrawling.Name ∧
      cfg.NumGoroutines = c.Uint64 flags.MaxNumGoroutines.Name ∧
      cfg.DatabaseMaxConnLifetime = c.Uint64 flags.DatabaseConnMaxLifetime.Name ∧
      cfg.SrcBridgeAddress = ext.HexToAddress (c.String flags.SrcBridgeAddress.Name) ∧
      cfg.SrcTaikoAddress = ext.HexToAddress (c.String flags.SrcTaikoAddress.Name) ∧
      cfg.SrcSignalServiceAddress =
        ext.HexToAddress (c.String flags.SrcSignalServiceAddress.Name) ∧
      cfg.DestBridgeAddress =
        ext.HexToAddress (c.String flags.DestBridgeAddress.Name) :=
  ⟨_, rfl, rfl, rfl, rfl, rfl, rfl, rfl, rfl, rfl, rfl, rfl, rfl, rfl, rfl, rfl, rfl,
    rfl, rfl, rfl, rfl, rfl, rfl, rfl, rfl⟩

/-- C8: for every context whatsoever `NewConfigFromCliContext` returns a config
that is not nil together with a nil error; there is no failing path. The
contexts include those whose `BlockBatchSize` and `NumGoroutines` read zero,
whose mode flags are unrecognised and whose address strings are arbitrary. -/
theorem newConfig_total (ext : Externals Address DBHandle GormDB Queue)
    (flags : Flags) (c : Context) :
    ∃ cfg, NewConfigFromCliContext ext flags c = (some cfg, none) :=
  ⟨_, rfl⟩

/-- C9: the options that the returned config's `OpenDBFunc` passes to
`db.OpenDBConnection` agree with the database fields of the same config. -/
theorem newConfig_openDB_opts (ext : Externals Address DBHandle GormDB Queue)
    (flags : Flags) (c : Context) :
    ∃ cfg, (NewConfigFromCliContext ext flags c).1 = some cfg ∧
      cfg.OpenDBFunc () = ext.OpenDBConnection (dbConnectionOpts ext flags c) ∧
      (dbConnectionOpts ext flags c).Name = cfg.DatabaseUsername ∧
      (dbConnectionOpts ext flags c).Password = cfg.DatabasePassword ∧
      (dbConnectionOpts ext flags c).Database = cfg.DatabaseName ∧
      (dbConnectionOpts ext flags c).Host = cfg.DatabaseHost ∧
      (dbConnectionOpts ext flags c).MaxIdleConns = cfg.DatabaseMaxIdleConns ∧
      (dbConnectionOpts ext flags c).MaxOpenConns = cfg.DatabaseMaxOpenConns ∧
      (dbConnectionOpts ext flags c).MaxConnLifetime = cfg.DatabaseMaxConnLifetime :=
  ⟨_, rfl, rfl, rfl, rfl, rfl, rfl, rfl, rfl, rfl⟩

/-- C10, as stated, fails: in the context where the queue port flag is not
defined the opener passes the empty string as `Port`, while the config's
`QueuePort` is 0, whose decimal rendering is `0`. -/
theorem newConfig_queue_port_not_rendering :
    ∃ cfg, (NewConfigFromCliContext sampleExternals sampleFlags emptyContext).1
        = some cfg ∧
      cfg.OpenQueueFunc () = (some (newQueueOpts sampleFlags emptyContext), none) ∧
      (newQueueOpts sampleFlags emptyContext).Port = "" ∧
      Nat.repr cfg.QueuePort = "0" ∧
      (newQueueOpts sampleFlags emptyContext).Port ≠ Nat.repr cfg.QueuePort :=
  ⟨_, rfl, rfl, by decide, by decide, by decide⟩

/-- C10, amended: the options that `OpenQueueFunc` passes to
`rabbitmq.NewQueue` agree with the queue fields of the same config in
`Username`, `Password` and `Host`; `Port` is the string reading of the queue
port flag, the flag whose `uint64` reading is the config's `QueuePort`. In
every context that defines the queue port flag as a `uint64` flag, `Port` is
the decimal rendering of `QueuePort`, which is the value the flag holds; in a
context that does not define the flag, `Port` is empty and `QueuePort` is 0.
`OpenQueueFunc` returns `(nil, err)` exactly when `rabbitmq.NewQueue` returns
the error `err`, and otherwise what `rabbitmq.NewQueue` returned as queue with
a nil error. -/
theorem newConfig_openQueue_opts (ext : Externals Address DBHandle GormDB Queue)
    (flags : Flags) (c : Context) :
    ∃ cfg, (NewConfigFromCliContext ext flags c).1 = some cfg ∧
      (newQueueOpts flags c).Username = cfg.QueueUsername ∧
      (newQueueOpts flags c).Password = cfg.QueuePassword ∧
      (newQueueOpts flags c).Host = cfg.QueueHost ∧
      (newQueueOpts flags c).Port = c.String flags.QueuePort.Name ∧
      cfg.QueuePort = c.Uint64 flags.QueuePort.Name ∧
      (∀ v, c.flagSet flags.QueuePort.Name = some (FlagValue.uint64 v) →
        cfg.QueuePort = toUint64 v ∧
          (newQueueOpts flags c).Port = Nat.repr cfg.QueuePort) ∧
      (c.flagSet flags.QueuePort.Name = none →
        (newQueueOpts flags c).Port = "" ∧ cfg.QueuePort = 0) ∧
      (∀ err, cfg.OpenQueueFunc () = (none, some err) ↔
        (ext.NewQueue (newQueueOpts flags c)).2 = some err) ∧
      ((ext.NewQueue (newQueueOpts flags c)).2 = none ↔
        cfg.OpenQueueFunc () = ((ext.NewQueue (newQueueOpts flags c)).1, none)) := by
  refine ⟨_, rfl, rfl, rfl, rfl, rfl, rfl, ?_, ?_, ?_, ?_⟩
  · intro v hv
    simp only [newQueueOpts, Context.String, Context.Uint64, hv, FlagValue.render,
      FlagValue.parse, and_self]
  · intro hnone
    simp only [newQueueOpts, Context.String, Context.Uint64, hnone, and_self]
  · intro err
    show (match ext.NewQueue (newQueueOpts flags c) with
      | (_, some err) => (none, some err)
      | (q, none) => (q, none)) = (none, some err) ↔ _
    rcases ext.NewQueue (newQueueOpts flags c) with ⟨q, _ | e⟩ <;> simp
  · show _ ↔ (match ext.NewQueue (newQueueOpts flags c) with
      | (_, some err) => (none, some err)
      | (q, none) => (q, none)) = _
    rcases ext.NewQueue (newQueueOpts flags c) with ⟨q, _ | e⟩ <;> simp

/-- The amended C10 at the context whose queue port flag is a `uint64` flag
set to 5672: the config's `QueuePort` is 5672 and the opener passes `5672`,
its decimal rendering, as `Port`. -/
theorem newConfig_openQueue_opts_witness :
    portContext.flagSet sampleFlags.QueuePort.Name = some (FlagValue.uint64 5672) ∧
      toUint64 5672 = 5672 ∧
      (newQueueOpts sampleFlags portContext).Port = "5672" ∧
      ∃ cfg, (NewConfigFromCliContext sampleExternals sampleFlags portContext).1
          = some cfg ∧
        cfg.QueuePort = toUint64 5672 ∧
        (newQueueOpts sampleFlags portContext).Port = Nat.repr cfg.QueuePort := by
  refine ⟨by decide, by decide, by decide, ?_⟩
  obtain ⟨cfg, hcfg, -, -, -, -, -, hport, -⟩ :=
    newConfig_openQueue_opts sampleExternals sampleFlags portContext
  exact ⟨cfg, hcfg, hport 5672 (by decide)⟩

end

/-! ## Theorems on `NewServer` -/

/-- A search finds the only element that satisfies the predicate. -/
theorem find?_of_unique {α : Type} (p : α → Bool) (l : List α) (d : α)
    (hd : d ∈ l) (hp : p d = true) (huniq : ∀ x, p x = true → x = d) :
    l.find? p = some d := by
  induction l with
  | nil => simp at hd
  | cons x xs ih =>
    by_cases hx : p x = true
    · have hxd := huniq x hx
      subst hxd
      simp [List.find?_cons, hx]
    · rcases List.mem_cons.mp hd with h | h
      · exact absurd (h ▸ hp) hx
      · simp [List.find?_cons, hx, ih h]

/-- A search finds nothing when no element satisfies the predicate. -/
theorem find?_of_none {α : Type} (p : α → Bool) (l : List α)
    (hp : ∀ x, p x = false) : l.find? p = none := by
  induction l with
  | nil => rfl
  | cons x xs ih => simp [List.find?_cons, hp x, ih]

section
variable {Echo EventRepo SuspendedTxRepo EthClient BlockRepo : Type}

/-- C4: when exactly one required dependency is nil and all others are present,
`NewServer` returns no server and the error designated for that dependency,
whatever the order of the checks, provided every dependency is checked. -/
theorem newServer_missing_dependency (checks : List Dependency)
    (hall : ∀ d, d ∈ checks)
    (e : Echo) (er : EventRepo) (st : SuspendedTxRepo) (cors : List String)
    (src dst : EthClient) (br : BlockRepo) :
    NewServer checks
        { Echo := some e, EventRepo := some er, SuspendedTxRepo := some st,
          CorsOrigins := some cors, SrcEthClient := none, DestEthClient := some dst,
          BlockRepo := some br }
      = (none, some ServerError.ErrNoEthClient) ∧
    NewServer checks
        { Echo := some e, EventRepo := some er, SuspendedTxRepo := some st,
          CorsOrigins := some cors, SrcEthClient := some src, DestEthClient := none,
          BlockRepo := some br }
      = (none, some ServerError.ErrNoEthClient) ∧
    NewServer checks
        { Echo := some e, EventRepo := some er, SuspendedTxRepo := some st,
          CorsOrigins := some cors, SrcEthClient := some src, DestEthClient := some dst,
          BlockRepo := (none : Option BlockRepo) }
      = (none, some ServerError.ErrNoBlockRepository) ∧
    NewServer checks
        { Echo := some e, EventRepo := (none : Option EventRepo),
          SuspendedTxRepo := some st, CorsOrigins := some cors,
          SrcEthClient := some src, DestEthClient := some dst, BlockRepo := some br }
      = (none, some ServerError.ErrNoEventRepository) ∧
    NewServer checks
        { Echo := some e, EventRepo := some er, SuspendedTxRepo := some st,
          CorsOrigins := none, SrcEthClient := some src, DestEthClient := some dst,
          BlockRepo := some br }
      = (none, some ServerError.ErrNoCORSOrigins) ∧
    NewServer checks
        { Echo := (none : Option Echo), EventRepo := some er, SuspendedTxRepo := some st,
          CorsOrigins := some cors, SrcEthClient := some src, DestEthClient := some dst,
          BlockRepo := some br }
      = (none, some ServerError.ErrNoHTTPFramework) := by
  refine ⟨?_, ?_, ?_, ?_, ?_, ?_⟩
  · unfold NewServer
    rw [find?_of_unique _ checks Dependency.SrcEthClient (hall _) rfl
      (by intro x hx; cases x <;> simp_all [NewServerOpts.missing])]
    rfl
  · unfold NewServer
    rw [find?_of_unique _ checks Dependency.DestEthClient (hall _) rfl
      (by intro x hx; cases x <;> simp_all [NewServerOpts.missing])]
    rfl
  · unfold NewServer
    rw [find?_of_unique _ checks Dependency.BlockRepo (hall _) rfl
      (by intro x hx; cases x <;> simp_all [NewServerOpts.missing])]
    rfl
  · unfold NewServer
    rw [find?_of_unique _ checks Dependency.EventRepo (hall _) rfl
      (by intro x hx; cases x <;> simp_all [NewServerOpts.missing])]
    rfl
  · unfold NewServer
    rw [find?_of_unique _ checks Dependency.CorsOrigins (hall _) rfl
      (by intro x hx; cases x <;> simp_all [NewServerOpts.missing])]
    rfl
  · unfold NewServer
    rw [find?_of_unique _ checks Dependency.Echo (hall _) rfl
      (by intro x hx; cases x <;> simp_all [NewServerOpts.missing])]
    rfl

/-- C5: when `Echo`, `EventRepo`, `SuspendedTxRepo`, `SrcEthClient`,
`DestEthClient` and `BlockRepo` are present and `CorsOrigins` is a list that is
not nil, `NewServer` returns a server and a nil error; the empty list is
accepted like any other, while a nil `CorsOrigins` is rejected. -/
theorem newServer_complete_opts (checks : List Dependency)
    (hall : ∀ d, d ∈ checks)
    (e : Echo) (er : EventRepo) (st : SuspendedTxRepo) (cors : List String)
    (src dst : EthClient) (br : BlockRepo) :
    NewServer checks
        { Echo := some e, EventRepo := some er, SuspendedTxRepo := some st,
          CorsOrigins := some cors, SrcEthClient := some src, DestEthClient := some dst,
          BlockRepo := some br }
      = (some { echo := some e, eventRepo := some er, suspendedTxRepo := some st },
          none) ∧
    (NewServer checks
        { Echo := some e, EventRepo := some er, SuspendedTxRepo := some st,
          CorsOrigins := some [], SrcEthClient := some src, DestEthClient := some dst,
          BlockRepo := some br }).2 = none ∧
    (NewServer checks
        { Echo := some e, EventRepo := some er, SuspendedTxRepo := some st,
          CorsOrigins := none, SrcEthClient := some src, DestEthClient := some dst,
          BlockRepo := some br }).2 = some ServerError.ErrNoCORSOrigins := by
  refine ⟨?_, ?_, ?_⟩
  · unfold NewServer
    rw [find?_of_none _ checks (by intro x; cases x <;> rfl)]
  · unfold NewServer
    rw [find?_of_none _ checks (by intro x; cases x <;> rfl)]
  · unfold NewServer
    rw [find?_of_unique _ checks Dependency.CorsOrigins (hall _) rfl
      (by intro x hx; cases x <;> simp_all [NewServerOpts.missing])]
    rfl

end

/-- Every dependency is among the checks of the test table. -/
theorem tableChecks_all : ∀ d, d ∈ tableChecks := by
  intro d
  cases d <;> decide

/-- C4 at the options of `Test_NewServer`, with the checks in table order. -/
theorem newServer_missing_dependency_witness :
    (∀ d, d ∈ tableChecks) ∧
    NewServer tableChecks
        ({ Echo := some (), EventRepo := some (), SuspendedTxRepo := some (),
           CorsOrigins := some [], SrcEthClient := none, DestEthClient := some (),
           BlockRepo := some () } : NewServerOpts Unit Unit Unit Unit Unit)
      = (none, some ServerError.ErrNoEthClient) :=
  ⟨tableChecks_all,
    (newServer_missing_dependency tableChecks tableChecks_all () () () [] () () ()).1⟩

/-- C5 at the options of the `success` case of `Test_NewServer`. -/
theorem newServer_complete_opts_witness :
    (∀ d, d ∈ tableChecks) ∧
    NewServer tableChecks
        ({ Echo := some (), EventRepo := some (), SuspendedTxRepo := some (),
           CorsOrigins := some [], SrcEthClient := some (), DestEthClient := some (),
           BlockRepo := some () } : NewServerOpts Unit Unit Unit Unit Unit)
      = (some { echo := some (), eventRepo := some (), suspendedTxRepo := some () },
          none) :=
  ⟨tableChecks_all,
    (newServer_complete_opts tableChecks tableChecks_all () () () [] () () ()).1⟩

/-! ## Theorems on the crawler's batches -/

/-- Beyond the end of the range the batching loop produces nothing. -/
theorem batchesFrom_past_end (fuel f e B : Nat) (h : e < f) :
    batchesFrom fuel f e B = [] := by
  cases fuel with
  | zero => rfl
  | succ k => simp [batchesFrom, h]

/-- One step of the batching loop inside the range. -/
theorem batchesFrom_step (k f e B : Nat) (h : f ≤ e) :
    batchesFrom (k + 1) f e B
      = ⟨f, min (f + B - 1) e⟩ :: batchesFrom k (min (f + B - 1) e + 1) e B := by
  have h2 : ¬ e < f := Nat.not_lt.mpr h
  simp [batchesFrom, h2]

/-- The first batch, if any, starts where the loop starts. -/
theorem batchesFrom_head (fuel f e B : Nat) :
    ∀ b ∈ (batchesFrom fuel f e B).head?, b.fromBlock = f := by
  intro b hb
  cases fuel with
  | zero => simp [batchesFrom] at hb
  | succ k =>
    by_cases h : f ≤ e
    · rw [batchesFrom_step k f e B h] at hb
      simp at hb
      rw [← hb]
    · rw [batchesFrom_past_end _ _ _ _ (Nat.lt_of_not_le h)] at hb
      simp at hb

/-- Every batch lies in the range, is not empty and has at most `B` blocks. -/
theorem batchesFrom_bounds (fuel : Nat) (e B : Nat) (hB : 1 ≤ B) :
    ∀ f, ∀ b ∈ batchesFrom fuel f e B,
      f ≤ b.fromBlock ∧ b.fromBlock ≤ b.toBlock ∧ b.toBlock ≤ e ∧
        b.toBlock - b.fromBlock + 1 ≤ B := by
  induction fuel with
  | zero => intro f b hb; simp [batchesFrom] at hb
  | succ k ih =>
    intro f b hb
    by_cases h : f ≤ e
    · rw [batchesFrom_step k f e B h] at hb
      rcases List.mem_cons.mp hb with hb | hb
      · subst hb
        simp only
        omega
      · have := ih _ b hb
        omega
    · rw [batchesFrom_past_end _ _ _ _ (Nat.lt_of_not_le h)] at hb
      simp at hb

/-- Each batch starts right after the one before it. -/
theorem batchesFrom_chain (fuel : Nat) (e B : Nat) :
    ∀ f, List.Chain' (fun a b : BlockRange => b.fromBlock = a.toBlock + 1)
      (batchesFrom fuel f e B) := by
  induction fuel with
  | zero => intro f; simp [batchesFrom]
  | succ k ih =>
    intro f
    by_cases h : f ≤ e
    · rw [batchesFrom_step k f e B h, List.chain'_cons']
      exact ⟨fun y hy => batchesFrom_head _ _ _ _ y hy, ih _⟩
    · rw [batchesFrom_past_end _ _ _ _ (Nat.lt_of_not_le h)]
      exact List.chain'_nil

/-- With one iteration per remaining block the last batch ends at `e`. -/
theorem batchesFrom_last (fuel : Nat) (e B : Nat) (hB : 1 ≤ B) :
    ∀ f, f ≤ e → e + 1 - f ≤ fuel →
      ∃ b, (batchesFrom fuel f e B).getLast? = some b ∧ b.toBlock = e := by
  induction fuel with
  | zero => intro f hf hfuel; omega
  | succ k ih =>
    intro f hf hfuel
    rw [batchesFrom_step k f e B hf]
    by_cases ht : min (f + B - 1) e = e
    · rw [ht, batchesFrom_past_end k (e + 1) e B (Nat.lt_succ_self e)]
      exact ⟨_, rfl, rfl⟩
    · have hlt : min (f + B - 1) e + 1 ≤ e := by omega
      obtain ⟨b, hb, hbe⟩ := ih (min (f + B - 1) e + 1) hlt (by omega)
      refine ⟨b, ?_, hbe⟩
      rw [List.getLast?_cons, hb]
      rfl

/-- With one iteration per remaining block, each block of the range lies in
exactly one batch. -/
theorem batchesFrom_count (fuel : Nat) (e B : Nat) (hB : 1 ≤ B) (n : Nat) (hn : n ≤ e) :
    ∀ f, f ≤ n → e + 1 - f ≤ fuel →
      (batchesFrom fuel f e B).countP (fun b => b.contains n) = 1 := by
  induction fuel with
  | zero => intro f hf hfuel; omega
  | succ k ih =>
    intro f hf hfuel
    rw [batchesFrom_step k f e B (Nat.le_trans hf hn), List.countP_cons]
    by_cases ht : n ≤ min (f + B - 1) e
    · have hzero : (batchesFrom k (min (f + B - 1) e + 1) e B).countP
          (fun b => b.contains n) = 0 := by
        rw [List.countP_eq_zero]
        intro b hb hc
        have := batchesFrom_bounds k e B hB _ b hb
        simp only [BlockRange.contains, Bool.and_eq_true, decide_eq_true_eq] at hc
        omega
      rw [hzero]
      simp [BlockRange.contains, hf, ht]
    · rw [ih (min (f + B - 1) e + 1) (by omega) (by omega)]
      simp [BlockRange.contains, ht]

/-- C6: for `start ≤ end` and `BlockBatchSize ≥ 1` the batches of the range are
consecutive (the first starts at `start`, each next one right after the one
before, the last ends at `end`), none is empty or longer than `BlockBatchSize`,
every block of `[start, end]` lies in exactly one batch and no batch holds a
block outside `[start, end]`. -/
theorem partitionRange_spec (startBlock endBlock batchSize : Nat)
    (hrange : startBlock ≤ endBlock) (hsize : 1 ≤ batchSize) :
    (∃ first rest, partitionRange startBlock endBlock batchSize = first :: rest ∧
      first.fromBlock = startBlock) ∧
    List.Chain' (fun a b : BlockRange => b.fromBlock = a.toBlock + 1)
      (partitionRange startBlock endBlock batchSize) ∧
    (∃ last, (partitionRange startBlock endBlock batchSize).getLast? = some last ∧
      last.toBlock = endBlock) ∧
    (∀ b ∈ partitionRange startBlock endBlock batchSize,
      b.fromBlock ≤ b.toBlock ∧ b.size ≤ batchSize) ∧
    (∀ n, startBlock ≤ n → n ≤ endBlock →
      (partitionRange startBlock endBlock batchSize).countP
        (fun b => b.contains n) = 1) ∧
    (∀ n, ∀ b ∈ partitionRange startBlock endBlock batchSize,
      b.contains n = true → startBlock ≤ n ∧ n ≤ endBlock) := by
  unfold partitionRange
  refine ⟨?_, batchesFrom_chain _ _ _ _, ?_, ?_, ?_, ?_⟩
  · obtain ⟨k, hk⟩ : ∃ k, endBlock + 1 - startBlock = k + 1 :=
      ⟨endBlock - startBlock, by omega⟩
    rw [hk, batchesFrom_step k _ _ _ hrange]
    exact ⟨_, _, rfl, rfl⟩
  · exact batchesFrom_last _ _ _ hsize _ hrange (Nat.le_refl _)
  · intro b hb
    have := batchesFrom_bounds _ _ _ hsize _ b hb
    simp only [BlockRange.size]
    omega
  · intro n hs he
    exact batchesFrom_count _ _ _ hsize n he _ hs (Nat.le_refl _)
  · intro n b hb hc
    have := batchesFrom_bounds _ _ _ hsize _ b hb
    simp only [BlockRange.contains, Bool.and_eq_true, decide_eq_true_eq] at hc
    omega

/-- C6 at the range `[100, 200]` with batches of 20 blocks: six batches, and
each of the 101 blocks lies in exactly one of them. -/
theorem partitionRange_spec_witness :
    100 ≤ 200 ∧ 1 ≤ 20 ∧
      partitionRange 100 200 20
        = [⟨100, 119⟩, ⟨120, 139⟩, ⟨140, 159⟩, ⟨160, 179⟩, ⟨180, 199⟩, ⟨200, 200⟩] ∧
      ∀ n, 100 ≤ n → n ≤ 200 →
        (partitionRange 100 200 20).countP (fun b => b.contains n) = 1 :=
  ⟨by decide, by decide, by decide,
    (partitionRange_spec 100 200 20 (by decide) (by decide)).2.2.2.2.1⟩

/-! ## Theorems on the progress cursor -/

/-- Membership of a block in a range, spelled out. -/
theorem contains_iff (b : BlockRange) (n : Nat) :
    b.contains n = true ↔ b.fromBlock ≤ n ∧ n ≤ b.toBlock := by
  simp [BlockRange.contains]

/-- A block is committed when a committed batch holds it. -/
theorem committed_iff (done : List BlockRange) (n : Nat) :
    committed done n = true ↔ ∃ b ∈ done, b.contains n = true := by
  simp [committed]

/-- Two ranges of which one ends before the other starts share no block. -/
theorem disjoint_of_separated {a b : BlockRange}
    (h : a.toBlock < b.fromBlock ∨ b.toBlock < a.fromBlock) : a.Disjoint b := by
  intro n hn
  rw [contains_iff, contains_iff] at hn
  omega

/-- The first uncovered block lies in the range. -/
theorem CursorInv.start_le {startBlock : Nat} {done : List BlockRange}
    {s : CursorState} (h : CursorInv startBlock done s) :
    startBlock ≤ s.nextBlock startBlock := by
  unfold CursorState.nextBlock
  cases hc : s.cursor with
  | none => simp
  | some c =>
    have := h.cursor_ge c hc
    simp only
    omega

/-- The order of cursor values is reflexive. -/
theorem cursorLE_refl (a : Option Nat) : cursorLE a a := by
  cases a <;> simp [cursorLE]

/-- The order of cursor values is transitive. -/
theorem cursorLE_trans {a b c : Option Nat} (hab : cursorLE a b) (hbc : cursorLE b c) :
    cursorLE a c := by
  cases a <;> cases b <;> cases c <;> simp_all [cursorLE]
  omega

/-- The invariant holds before any batch has committed. -/
theorem cursorInv_init (startBlock : Nat) :
    CursorInv startBlock [] { cursor := none, pending := [] } where
  pending_done := by simp
  released_below := by simp
  covered := by
    intro n h1 h2
    simp only [CursorState.nextBlock] at h2
    omega
  cursor_ge := by simp
  nodup := List.nodup_nil

/-- Holding back a newly committed batch keeps the invariant. -/
theorem cursorInv_push {startBlock : Nat} {done : List BlockRange} {s : CursorState}
    (h : CursorInv startBlock done s) (b : BlockRange) (hb : b ∉ done) :
    CursorInv startBlock (done ++ [b]) { s with pending := b :: s.pending } where
  pending_done := by
    intro x hx
    rcases List.mem_cons.mp hx with hx | hx
    · simp [hx]
    · exact List.mem_append_left _ (h.pending_done x hx)
  released_below := by
    intro x hx hnp
    have hxb : x ≠ b := fun e => hnp (by simp [e])
    have hxd : x ∈ done := by
      rcases List.mem_append.mp hx with hx | hx
      · exact hx
      · exact absurd (List.mem_singleton.mp hx) hxb
    exact h.released_below x hxd (fun hp => hnp (List.mem_cons_of_mem _ hp))
  covered := by
    intro n h1 h2
    obtain ⟨x, hxd, hxp, hxc⟩ := h.covered n h1 h2
    refine ⟨x, List.mem_append_left _ hxd, ?_, hxc⟩
    intro hx
    rcases List.mem_cons.mp hx with hx | hx
    · exact hb (hx ▸ hxd)
    · exact hxp hx
  cursor_ge := h.cursor_ge
  nodup := List.nodup_cons.mpr ⟨fun hp => hb (h.pending_done b hp), h.nodup⟩

/-- Releasing a held back batch that starts at the first uncovered block keeps
the invariant. -/
theorem cursorInv_release {startBlock : Nat} {done : List BlockRange} {s : CursorState}
    (h : CursorInv startBlock done s) (b : BlockRange) (hb : b ∈ s.pending)
    (hfrom : b.fromBlock = s.nextBlock startBlock) (hne : b.fromBlock ≤ b.toBlock) :
    CursorInv startBlock done { cursor := some b.toBlock, pending := s.pending.erase b } where
  pending_done := fun x hx => h.pending_done x (List.mem_of_mem_erase hx)
  released_below := by
    intro x hx hnp
    simp only [CursorState.nextBlock]
    by_cases hxb : x = b
    · subst hxb
      omega
    · have hxp : x ∉ s.pending := fun hp => hnp ((List.mem_erase_of_ne hxb).mpr hp)
      have := h.released_below x hx hxp
      omega
  covered := by
    intro n h1 h2
    simp only [CursorState.nextBlock] at h2
    by_cases hn : n < s.nextBlock startBlock
    · obtain ⟨x, hxd, hxp, hxc⟩ := h.covered n h1 hn
      exact ⟨x, hxd, fun hx => hxp (List.mem_of_mem_erase hx), hxc⟩
    · refine ⟨b, h.pending_done b hb, h.nodup.not_mem_erase, ?_⟩
      rw [contains_iff]
      omega
  cursor_ge := by
    intro c hc
    simp only [Option.some.injEq] at hc
    have := h.start_le
    omega
  nodup := h.nodup.erase b

/-- Releasing batches keeps the invariant, never lowers the cursor and, given
one iteration per held back batch, leaves no batch adjacent to the cursor. -/
theorem advance_spec (startBlock : Nat) (done : List BlockRange)
    (hne : ∀ b ∈ done, b.fromBlock ≤ b.toBlock) (fuel : Nat) :
    ∀ s, CursorInv startBlock done s →
      CursorInv startBlock done (advance startBlock fuel s) ∧
      cursorLE s.cursor (advance startBlock fuel s).cursor ∧
      (s.pending.length ≤ fuel → Drained startBlock (advance startBlock fuel s)) := by
  induction fuel with
  | zero =>
    intro s h
    refine ⟨h, cursorLE_refl _, ?_⟩
    intro hlen b hb
    have hnil : s.pending = [] := List.length_eq_zero.mp (Nat.le_zero.mp hlen)
    simp [advance, hnil] at hb
  | succ k ih =>
    intro s h
    rw [advance]
    cases hf : s.pending.find? (fun b => decide (b.fromBlock = s.nextBlock startBlock)) with
    | none =>
      refine ⟨h, cursorLE_refl _, ?_⟩
      intro _ b hb
      have := List.find?_eq_none.mp hf b hb
      simpa using this
    | some b =>
      have hb : b ∈ s.pending := List.mem_of_find?_eq_some hf
      have hfrom : b.fromBlock = s.nextBlock startBlock := by
        simpa using List.find?_some hf
      have hbne := hne b (h.pending_done b hb)
      obtain ⟨h1, h2, h3⟩ := ih _ (cursorInv_release h b hb hfrom hbne)
      refine ⟨h1, cursorLE_trans ?_ h2, ?_⟩
      · cases hc : s.cursor with
        | none => simp [cursorLE]
        | some c =>
          simp only [CursorState.nextBlock, hc] at hfrom
          simp only [cursorLE]
          omega
      · intro hlen
        apply h3
        simp only [List.length_erase_of_mem hb]
        omega

/-- Committing one more batch keeps the invariant, never lowers the cursor and
leaves no held back batch adjacent to the cursor. -/
theorem commitBatch_spec {startBlock : Nat} {done : List BlockRange} {s : CursorState}
    (h : CursorInv startBlock done s) (b : BlockRange) (hb : b ∉ done)
    (hne : ∀ x ∈ done ++ [b], x.fromBlock ≤ x.toBlock) :
    CursorInv startBlock (done ++ [b]) (commitBatch startBlock s b) ∧
      cursorLE s.cursor (commitBatch startBlock s b).cursor ∧
      Drained startBlock (commitBatch startBlock s b) := by
  obtain ⟨h1, h2, h3⟩ :=
    advance_spec startBlock (done ++ [b]) hne (s.pending.length + 1) _
      (cursorInv_push h b hb)
  exact ⟨h1, h2, h3 (by simp)⟩

/-- A batch that is not empty and shares no block with the batches committed
before it is not one of them. -/
theorem fresh_of_pairwise {done : List BlockRange} {b : BlockRange}
    (hdisj : (done ++ [b]).Pairwise BlockRange.Disjoint)
    (hne : b.fromBlock ≤ b.toBlock) : b ∉ done := by
  intro hb
  have := (List.pairwise_append.mp hdisj).2.2 b hb b (List.mem_singleton.mpr rfl)
  exact this b.fromBlock ⟨(contains_iff _ _).mpr ⟨Nat.le_refl _, hne⟩,
    (contains_iff _ _).mpr ⟨Nat.le_refl _, hne⟩⟩

/-- After any sequence of commits of batches of the range that are not empty
and pairwise disjoint, the invariant holds and no held back batch is adjacent
to the cursor. -/
theorem runCommits_inv (startBlock : Nat) (order : List BlockRange)
    (hne : ∀ b ∈ order, b.fromBlock ≤ b.toBlock)
    (hdisj : order.Pairwise BlockRange.Disjoint) :
    CursorInv startBlock order (runCommits startBlock order) ∧
      Drained startBlock (runCommits startBlock order) := by
  induction order using List.reverseRecOn with
  | nil =>
    refine ⟨cursorInv_init startBlock, ?_⟩
    intro b hb
    simp [runCommits] at hb
  | append_singleton l b ih =>
    have hl := ih (fun x hx => hne x (List.mem_append_left _ hx))
      ((List.pairwise_append.mp hdisj).1)
    have hfresh := fresh_of_pairwise hdisj (hne b (by simp))
    have := commitBatch_spec hl.1 b hfresh hne
    simp only [runCommits, List.foldl_append, List.foldl_cons, List.foldl_nil]
    exact ⟨this.1, this.2.2⟩

/-- Committing further batches never lowers the cursor. -/
theorem runCommits_mono (startBlock : Nat) (l m : List BlockRange)
    (hne : ∀ b ∈ l ++ m, b.fromBlock ≤ b.toBlock)
    (hdisj : (l ++ m).Pairwise BlockRange.Disjoint) :
    cursorLE (runCommits startBlock l).cursor (runCommits startBlock (l ++ m)).cursor := by
  induction m using List.reverseRecOn with
  | nil => simpa using cursorLE_refl _
  | append_singleton m b ih =>
    rw [← List.append_assoc] at hne hdisj
    have hne2 : ∀ x ∈ l ++ m, x.fromBlock ≤ x.toBlock :=
      fun x hx => hne x (List.mem_append_left _ hx)
    have hdisj2 := (List.pairwise_append.mp hdisj).1
    have hinv := (runCommits_inv startBlock (l ++ m) hne2 hdisj2).1
    have hfresh := fresh_of_pairwise hdisj (hne b (by simp))
    have hstep := (commitBatch_spec hinv b hfresh hne).2.1
    have : runCommits startBlock (l ++ (m ++ [b]))
        = commitBatch startBlock (runCommits startBlock (l ++ m)) b := by
      simp only [runCommits, ← List.append_assoc, List.foldl_append, List.foldl_cons,
        List.foldl_nil]
    rw [this]
    exact cursorLE_trans (ih hne2 hdisj2) hstep

/-- Under the invariant, with no held back batch adjacent to the cursor and the
committed batches pairwise disjoint and inside the range, the cursor is the
highest block up to which everything is committed. -/
theorem frontier_of_inv {startBlock : Nat} {done : List BlockRange} {s : CursorState}
    (h : CursorInv startBlock done s) (hdr : Drained startBlock s)
    (hrange : ∀ b ∈ done, startBlock ≤ b.fromBlock)
    (hdisj : done.Pairwise BlockRange.Disjoint) :
    IsFrontier startBlock done s.cursor := by
  have hsymm : Symmetric BlockRange.Disjoint :=
    fun a b hab n hn => hab n ⟨hn.2, hn.1⟩
  have hnext : ¬ committed done (s.nextBlock startBlock) = true := by
    rw [committed_iff]
    rintro ⟨b, hbd, hbc⟩
    rw [contains_iff] at hbc
    have hbp : b ∈ s.pending := by
      by_contra hnp
      have := h.released_below b hbd hnp
      omega
    have hfrom := hdr b hbp
    have hstart := hrange b hbd
    have hlt : b.fromBlock < s.nextBlock startBlock := by omega
    obtain ⟨x, hxd, hxp, hxc⟩ :=
      h.covered (s.nextBlock startBlock - 1) (by omega) (by omega)
    have hbx : b ≠ x := fun e => hxp (e ▸ hbp)
    exact hdisj.forall hsymm hbd hxd hbx (s.nextBlock startBlock - 1)
      ⟨(contains_iff _ _).mpr ⟨by omega, by omega⟩, hxc⟩
  cases hc : s.cursor with
  | none =>
    simp only [CursorState.nextBlock, hc] at hnext
    simpa [IsFrontier] using hnext
  | some c =>
    simp only [CursorState.nextBlock, hc] at hnext
    have hge := h.cursor_ge c hc
    refine ⟨hge, ?_, ?_⟩
    · intro n h1 h2
      obtain ⟨x, hxd, -, hxc⟩ := h.covered n h1 (by
        simp only [CursorState.nextBlock, hc]
        omega)
      exact (committed_iff _ _).mpr ⟨x, hxd, hxc⟩
    · intro B2 hB2
      by_contra hlt
      exact hnext (hB2 (c + 1) (by omega) (by omega))

/-- C7: for every sequence of commits of batches of a range that starts at
`startBlock` (each batch not empty and inside the range, no two sharing a
block), in any order, the cursor after each step is the highest block `B` such
that all blocks from `startBlock` to `B` are committed (and there is no cursor
while `startBlock` is uncommitted); and the cursor after a step is never below
the cursor after an earlier step. -/
theorem cursor_is_frontier (startBlock : Nat) (order : List BlockRange)
    (hrange : ∀ b ∈ order, startBlock ≤ b.fromBlock ∧ b.fromBlock ≤ b.toBlock)
    (hdisj : order.Pairwise BlockRange.Disjoint) (k : Nat) :
    IsFrontier startBlock (order.take k) (runCommits startBlock (order.take k)).cursor ∧
      ∀ j, j ≤ k →
        cursorLE (runCommits startBlock (order.take j)).cursor
          (runCommits startBlock (order.take k)).cursor := by
  have hne : ∀ b ∈ order.take k, b.fromBlock ≤ b.toBlock :=
    fun b hb => (hrange b (List.mem_of_mem_take hb)).2
  have hst : ∀ b ∈ order.take k, startBlock ≤ b.fromBlock :=
    fun b hb => (hrange b (List.mem_of_mem_take hb)).1
  have hd : (order.take k).Pairwise BlockRange.Disjoint :=
    hdisj.sublist (List.take_sublist k order)
  obtain ⟨hinv, hdr⟩ := runCommits_inv startBlock (order.take k) hne hd
  refine ⟨frontier_of_inv hinv hdr hst hd, ?_⟩
  intro j hj
  have hsplit : order.take k = order.take j ++ (order.take k).drop j := by
    conv_lhs => rw [← List.take_append_drop j (order.take k)]
    rw [List.take_take, Nat.min_eq_left hj]
  have := runCommits_mono startBlock (order.take j) ((order.take k).drop j)
    (hsplit ▸ hne) (hsplit ▸ hd)
  rw [← hsplit] at this
  exact this

/-- C7 at four batches of the range from block 100 that commit out of order:
after two commits there is no cursor, after all four it is 159, the block
before the batch that has not committed. -/
theorem cursor_is_frontier_witness :
    (∀ b ∈ outOfOrder, 100 ≤ b.fromBlock ∧ b.fromBlock ≤ b.toBlock) ∧
      outOfOrder.Pairwise BlockRange.Disjoint ∧
      (runCommits 100 (outOfOrder.take 2)).cursor = none ∧
      (runCommits 100 (outOfOrder.take 4)).cursor = some 159 ∧
      IsFrontier 100 (outOfOrder.take 4) (runCommits 100 (outOfOrder.take 4)).cursor :=
  ⟨by decide,
    List.Pairwise.imp (fun h => disjoint_of_separated h) (by decide),
    by decide, by decide,
    (cursor_is_frontier 100 outOfOrder (by decide)
      (List.Pairwise.imp (fun h => disjoint_of_separated h) (by decide)) 4).1⟩

end Relayer
